import Mathlib

/-!
Shallow embedding of the POP3 client in `src/lib.rs` (crate `pop3-client`,
plaintext build, the `with-rustls` feature disabled).

Rust strings are modelled as `List Char`; every protocol datum in scope is
ASCII, so Rust byte indices coincide with character indices.  The TCP stream
is modelled by the bytes the server has sent before closing, pre-split into
the chunks that successive `BufRead::read_line` calls return: a `List Line`
whose elements each end with a newline character, except possibly the last
one (data arriving right before EOF without a final newline).  An exhausted
list is EOF, where `read_line` reads zero bytes.  A Rust panic (out-of-bounds
slice) is modelled as `none`; the crate's `Result<T, String>` is
`Except Line T`.
-/

namespace Pop3

abbrev Line := List Char

/-- Rust `str::starts_with` on char-list strings. -/
def hasPfx : Line → Line → Bool
  | [], _ => true
  | _ :: _, [] => false
  | a :: ps, b :: qs => a == b && hasPfx ps qs

/-- Rust `str::ends_with` on char-list strings. -/
def hasSfx (p s : Line) : Bool := hasPfx p.reverse s.reverse

/-- Rust slicing `s[i..]`: panics (modelled as `none`) when `i` exceeds the
string length. -/
def sliceFrom : Line → Nat → Option Line
  | s, 0 => some s
  | [], _ + 1 => none
  | _ :: s, i + 1 => sliceFrom s i

def posMarker : Line := "+OK".toList
def termLine : Line := ".\r\n".toList
def abortMsg : Line := "Connection aborted".toList
def wrongStageMsg : Line := "login is only allowed in Authorization stage".toList

/-- One `read_line` call against the modelled stream: the line read (empty at
EOF, matching a zero-byte read) and the rest of the stream. -/
def readLine : List Line → Line × List Line
  | [] => ([], [])
  | l :: ls => (l, ls)

/-- Status-line classification inside `read_response` (`lib.rs` 532-542): a
`"+OK"`-prefixed line keeps everything after the first four bytes (the slice
`buffer[4..]`, which goes out of bounds when the line is exactly `"+OK"`);
any other line is a failure, surfaced verbatim when shorter than 6 bytes and
as `buffer[5..]` otherwise. -/
def parseStatus (buffer : Line) : Option (Except Line Line) :=
  if hasPfx posMarker buffer then
    match sliceFrom buffer 4 with
    | some s => some (Except.ok s)
    | none => none
  else
    some (Except.error (if buffer.length < 6 then buffer else buffer.drop 5))

/-- The slice `&buffer[..buffer.len() - if buffer.ends_with(".\r\n") { 3 } else { 0 }]`
(`lib.rs` 563-565). -/
def stripTerm (l : Line) : Line :=
  if hasSfx termLine l then l.take (l.length - 3) else l

/-- The multi-line accumulation loop of `read_response` (`lib.rs` 544-567):
keep reading while the last line read does not end in `".\r\n"`; a zero-byte
read aborts; each line is appended minus three trailing bytes when it ends in
`".\r\n"`. -/
def readMultiline (resp buffer : Line) : List Line → Except Line Line × List Line
  | [] =>
    if hasSfx termLine buffer then (Except.ok resp, [])
    else (Except.error abortMsg, [])
  | l :: ls =>
    if hasSfx termLine buffer then (Except.ok resp, l :: ls)
    else if l.isEmpty then (Except.error abortMsg, ls)
    else readMultiline (resp ++ stripTerm l) l ls

/-- `Client::read_response` (`lib.rs` 519-572): decode one reply, returning
the outcome (`none` models the out-of-bounds-slice panic) and the rest of the
stream. -/
def read_response (multiline : Bool) (input : List Line) :
    Option (Except Line Line) × List Line :=
  let r := readLine input
  if r.1.isEmpty then (some (Except.error abortMsg), r.2)
  else
    match parseStatus r.1 with
    | none => (none, r.2)
    | some (Except.error e) => (some (Except.error e), r.2)
    | some (Except.ok s) =>
      if multiline then
        let m := readMultiline s r.1 r.2
        (some m.1, m.2)
      else (some (Except.ok s), r.2)

/-- The client state: the unread server bytes (as `read_line` chunks), every
byte written to the transport so far, and the `authorized` flag of `Client`
(`lib.rs` 122-128). -/
structure Client where
  input : List Line
  written : Line
  authorized : Bool
deriving DecidableEq

/-- `Client::send` (`lib.rs` 574-580): write the query bytes, then read one
reply. -/
def send (c : Client) (query : Line) (multiline : Bool) :
    Option (Except Line Line) × Client :=
  let r := read_response multiline c.input
  (r.1, { input := r.2, written := c.written ++ query, authorized := c.authorized })

def userQuery (u : Line) : Line := "USER ".toList ++ u ++ "\r\n".toList

def passQuery (p : Line) : Line := "PASS ".toList ++ p ++ "\r\n".toList

def natLine (n : Nat) : Line := (Nat.repr n).toList

def statQuery : Line := "STAT\r\n".toList

def listQuery : Option Nat → Line
  | some n => "LIST ".toList ++ natLine n ++ "\r\n".toList
  | none => "LIST\r\n".toList

def retrQuery (m : Nat) : Line := "RETR ".toList ++ natLine m ++ "\r\n".toList

def deleQuery (m : Nat) : Line := "DELE ".toList ++ natLine m ++ "\r\n".toList

def topQuery (m n : Nat) : Line :=
  "TOP ".toList ++ natLine m ++ " ".toList ++ natLine n ++ "\r\n".toList

def uidlQuery : Option Nat → Line
  | some n => "UIDL ".toList ++ natLine n ++ "\r\n".toList
  | none => "UIDL\r\n".toList

def apopQuery (n d : Line) : Line :=
  "APOP ".toList ++ n ++ " ".toList ++ d ++ "\r\n".toList

def quitQuery : Line := "QUIT\r\n".toList

def noopQuery : Line := "NOOP\r\n".toList

def rsetQuery : Line := "RSET\r\n".toList

/-- `Client::login` (`lib.rs` 172-189): rejected when already authorized;
otherwise send the USER line, and only on its success the PASS line; the
`authorized` flag is set only after both replies are positive. -/
def login (c : Client) (u p : Line) : Option (Except Line Unit) × Client :=
  if c.authorized then (some (Except.error wrongStageMsg), c)
  else
    match send c (userQuery u) false with
    | (none, c1) => (none, c1)
    | (some (Except.error e), c1) => (some (Except.error e), c1)
    | (some (Except.ok _), c1) =>
      match send c1 (passQuery p) false with
      | (none, c2) => (none, c2)
      | (some (Except.error e), c2) => (some (Except.error e), c2)
      | (some (Except.ok _), c2) => (some (Except.ok ()), { c2 with authorized := true })

/-- `Client::apop` (`lib.rs` 445-454). -/
def apop (c : Client) (n d : Line) : Option (Except Line Line) × Client :=
  if c.authorized then (some (Except.error wrongStageMsg), c)
  else
    match send c (apopQuery n d) false with
    | (some (Except.ok s), c1) => (some (Except.ok s), { c1 with authorized := true })
    | r => r

/-- `Client::quit` (`lib.rs` 206-208). -/
def quit (c : Client) : Option (Except Line Unit) × Client :=
  match send c quitQuery false with
  | (none, c1) => (none, c1)
  | (some (Except.error e), c1) => (some (Except.error e), c1)
  | (some (Except.ok _), c1) => (some (Except.ok ()), c1)

/-- Rust whitespace test, restricted to the ASCII range in scope. -/
def isWs (c : Char) : Bool := c == ' ' || c == '\t' || c == '\n' || c == '\r'

/-- Rust `str::trim`. -/
def rustTrim (s : Line) : Line := ((s.dropWhile isWs).reverse.dropWhile isWs).reverse

/-- Rust `str::split(sep)`: `n` separators yield `n + 1` chunks, the empty
string yielding one empty chunk. -/
def splitChar (sep : Char) : Line → List Line
  | [] => [[]]
  | c :: cs =>
    if c == sep then [] :: splitChar sep cs
    else
      match splitChar sep cs with
      | [] => [[c]]
      | h :: t => (c :: h) :: t

/-- The `join` of an iterator of chunks with a separator. -/
def joinChar (sep : Char) : List Line → Line
  | [] => []
  | [x] => x
  | x :: xs => x ++ sep :: joinChar sep xs

/-- Rust `str::parse::<u32>` followed by `map_err(|e| e.to_string())`: an
optional leading `'+'`, then ASCII digits only, value below `2^32`; the error
strings are the `ParseIntError` display texts. -/
def rustParseU32 (s : Line) : Except Line Nat :=
  if s.isEmpty then Except.error "cannot parse integer from empty string".toList
  else
    let digits := match s with | '+' :: r => r | _ => s
    if digits.isEmpty || !(digits.all Char.isDigit) then
      Except.error "invalid digit found in string".toList
    else
      let v := digits.foldl (fun a c => a * 10 + (c.toNat - 48)) 0
      if v < 4294967296 then Except.ok v
      else Except.error "number too large to fit in target type".toList

/-- The payload parsing inside `Client::stat` (`lib.rs` 231-240): trim, split
on spaces, parse the first two fields lazily; a missing field is
`"INVALID_REPLY"`, a failed parse surfaces the `ParseIntError` text. -/
def parseStatPayload (s : Line) : Except Line (Nat × Nat) :=
  match splitChar ' ' (rustTrim s) with
  | [] => Except.error "INVALID_REPLY".toList
  | a :: rest =>
    match rustParseU32 a with
    | Except.error e => Except.error e
    | Except.ok n1 =>
      match rest with
      | [] => Except.error "INVALID_REPLY".toList
      | b :: _ =>
        match rustParseU32 b with
        | Except.error e => Except.error e
        | Except.ok n2 => Except.ok (n1, n2)

/-- `Client::stat` (`lib.rs` 228-242). -/
def stat (c : Client) : Option (Except Line (Nat × Nat)) × Client :=
  match send c statQuery false with
  | (none, c1) => (none, c1)
  | (some (Except.error e), c1) => (some (Except.error e), c1)
  | (some (Except.ok s), c1) => (some (parseStatPayload s), c1)

/-- `Client::list` (`lib.rs` 265-272). -/
def list (c : Client) (msg : Option Nat) : Option (Except Line Line) × Client :=
  send c (listQuery msg) msg.isNone

/-- The post-processing in `Client::retr`:
`s.split('\n').skip(1).collect::<Vec<&str>>().join("\n")`. -/
def rustSplitSkipJoin (s : Line) : Line :=
  joinChar '\n' ((splitChar '\n' s).drop 1)

/-- `Client::retr` (`lib.rs` 294-298). -/
def retr (c : Client) (msg : Nat) : Option (Except Line Line) × Client :=
  match send c (retrQuery msg) true with
  | (some (Except.ok s), c1) => (some (Except.ok (rustSplitSkipJoin s)), c1)
  | r => r

/-- `Client::dele` (`lib.rs` 321-324). -/
def dele (c : Client) (msg : Nat) : Option (Except Line Line) × Client :=
  send c (deleQuery msg) false

/-- `Client::noop` (`lib.rs` 342-344). -/
def noop (c : Client) : Option (Except Line Unit) × Client :=
  match send c noopQuery false with
  | (none, c1) => (none, c1)
  | (some (Except.error e), c1) => (some (Except.error e), c1)
  | (some (Except.ok _), c1) => (some (Except.ok ()), c1)

/-- `Client::rset` (`lib.rs` 363-365). -/
def rset (c : Client) : Option (Except Line Line) × Client :=
  send c rsetQuery false

/-- `Client::top` (`lib.rs` 388-391). -/
def top (c : Client) (msg n : Nat) : Option (Except Line Line) × Client :=
  send c (topQuery msg n) true

/-- `Client::uidl` (`lib.rs` 415-422). -/
def uidl (c : Client) (msg : Option Nat) : Option (Except Line Line) × Client :=
  send c (uidlQuery msg) msg.isNone

/-- One public operation of the client, for stating session-stage
invariants. -/
inductive Op where
  | loginOp (u p : Line)
  | apopOp (n d : Line)
  | quitOp
  | statOp
  | listOp (m : Option Nat)
  | retrOp (m : Nat)
  | deleOp (m : Nat)
  | noopOp
  | rsetOp
  | topOp (m n : Nat)
  | uidlOp (m : Option Nat)

/-- The client state after running one public operation. -/
def applyOp (c : Client) : Op → Client
  | Op.loginOp u p => (login c u p).2
  | Op.apopOp n d => (apop c n d).2
  | Op.quitOp => (quit c).2
  | Op.statOp => (stat c).2
  | Op.listOp m => (list c m).2
  | Op.retrOp m => (retr c m).2
  | Op.deleOp m => (dele c m).2
  | Op.noopOp => (noop c).2
  | Op.rsetOp => (rset c).2
  | Op.topOp m n => (top c m n).2
  | Op.uidlOp m => (uidl c m).2

theorem send_written (c : Client) (q : Line) (m : Bool) :
    (send c q m).2.written = c.written ++ q := rfl

theorem send_authorized (c : Client) (q : Line) (m : Bool) :
    (send c q m).2.authorized = c.authorized := rfl

theorem stat_client (c : Client) : (stat c).2 = (send c statQuery false).2 := by
  unfold stat
  rcases send c statQuery false with ⟨_ | (_ | _), c1⟩ <;> rfl

theorem retr_client (c : Client) (m : Nat) :
    (retr c m).2 = (send c (retrQuery m) true).2 := by
  unfold retr
  rcases send c (retrQuery m) true with ⟨_ | (_ | _), c1⟩ <;> rfl

theorem noop_client (c : Client) : (noop c).2 = (send c noopQuery false).2 := by
  unfold noop
  rcases send c noopQuery false with ⟨_ | (_ | _), c1⟩ <;> rfl

theorem quit_client (c : Client) : (quit c).2 = (send c quitQuery false).2 := by
  unfold quit
  rcases send c quitQuery false with ⟨_ | (_ | _), c1⟩ <;> rfl

/-- C1: the claim says the multi-line decoder keeps reading until a line that
is exactly `".\r\n"`, and that no earlier payload line ends the reading.  The
code instead tests `buffer.ends_with(".\r\n")`, so the payload line
`"foo.\r\n"` already stops the loop: the reply below decodes to the truncated
payload `"list\r\nfoo"` and leaves `"bar\r\n"` and the real terminator unread
in the stream. -/
theorem C1_payload_line_ending_in_dot_stops_reading :
    read_response true
        ["+OK list\r\n".toList, "foo.\r\n".toList, "bar\r\n".toList, ".\r\n".toList] =
      (some (Except.ok "list\r\nfoo".toList), ["bar\r\n".toList, ".\r\n".toList]) ∧
    "list\r\nfoo".toList ≠ "list\r\nfoo.\r\nbar\r\n".toList := by
  exact ⟨rfl, by decide⟩

/-- C3: on the positive branch the code slices `buffer[4..]` guarded only by
`starts_with("+OK")`, so the 3-byte line `"+OK"` (sent right before EOF with
no newline) makes the slice go out of bounds: a panic, modelled as `none`.
The negative branch is guarded (`len < 6` is surfaced verbatim), as the
second conjunct shows. -/
theorem C3_positive_branch_panics_on_short_line :
    (read_response false ["+OK".toList]).1 = none ∧
    (read_response false ["-ER\r\n".toList]).1 = some (Except.error "-ER\r\n".toList) := by
  exact ⟨rfl, rfl⟩

/-- C4: the code never strips a leading dot from payload lines: the line
`"..x\r\n"` is appended to the payload verbatim, with both dots, where the
claim requires the transparency un-escaped `".x"`. -/
theorem C4_no_transparency_unescaping :
    read_response true ["+OK m\r\n".toList, "..x\r\n".toList, ".\r\n".toList] =
      (some (Except.ok "m\r\n..x\r\n".toList), []) ∧
    "m\r\n..x\r\n".toList ≠ "m\r\n.x\r\n".toList := by
  exact ⟨rfl, by decide⟩

/-- C7, counterexample: decoding the single-line positive reply
`"+OK hello\r\n"` in non-multiline mode yields `"hello\r\n"`, not the claimed
`"hello"`: the trailing CRLF is not stripped. -/
theorem C7_counterexample_crlf_retained :
    (read_response false ["+OK hello\r\n".toList]).1 = some (Except.ok "hello\r\n".toList) ∧
    "hello\r\n".toList ≠ "hello".toList := by
  exact ⟨rfl, by decide⟩

/-- C7, amended: for every single-line positive reply `"+OK <text>\r\n"`
decoded in non-multiline mode, the payload is `"<text>\r\n"`: the marker and
the one separating space are stripped, the trailing CRLF is preserved. -/
theorem C7_single_line_payload_keeps_crlf (t : Line) :
    read_response false [('+' :: 'O' :: 'K' :: ' ' :: (t ++ ['\r', '\n']))] =
      (some (Except.ok (t ++ ['\r', '\n'])), []) := by
  simp [read_response, readLine, parseStatus, posMarker, hasPfx, sliceFrom]

/-- C9: `stat` parses the payload of `"+OK 2 340\r\n"` to `(2, 340)`; on
`"+OK 2 abc\r\n"` the reply is still classified positive (third conjunct), and
the number parsing fails locally with the `ParseIntError` text, an error value
rather than a panic; a protocol-level negative reply surfaces the server's own
text instead (fourth conjunct). -/
theorem C9_stat_parses_two_integers :
    (stat ⟨["+OK 2 340\r\n".toList], [], true⟩).1 = some (Except.ok (2, 340)) ∧
    (stat ⟨["+OK 2 abc\r\n".toList], [], true⟩).1 =
      some (Except.error "invalid digit found in string".toList) ∧
    parseStatus "+OK 2 abc\r\n".toList = some (Except.ok "2 abc\r\n".toList) ∧
    (stat ⟨["-ERR unavailable\r\n".toList], [], true⟩).1 =
      some (Except.error "unavailable\r\n".toList) := by
  exact ⟨rfl, rfl, rfl, rfl⟩

/-- C2, counterexample: `stat` invoked on an unauthenticated client performs
no local stage check: it writes the 6 bytes `"STAT\r\n"` to the transport and
returns the decoded server reply, not a wrong-stage error. -/
theorem C2_counterexample_stat_writes_while_unauthenticated :
    (stat ⟨["+OK 0 0\r\n".toList], [], false⟩).1 = some (Except.ok (0, 0)) ∧
    (stat ⟨["+OK 0 0\r\n".toList], [], false⟩).2.written = "STAT\r\n".toList ∧
    "STAT\r\n".toList ≠ ([] : Line) := by
  exact ⟨rfl, rfl, by decide⟩

/-- C2, amended: the mailbox operations perform no stage check at all.  Each
one, invoked while the session is unauthenticated, writes its full command
line to the transport (the `written` trace grows by exactly the query), and
the outcome is whatever the decoded server reply is (shown for `rset`, whose
result is exactly the decoder's outcome), never a locally raised wrong-stage
error. -/
theorem C2_mailbox_ops_write_without_stage_check :
    (∀ c : Client, c.authorized = false →
      (stat c).2.written = c.written ++ statQuery) ∧
    (∀ (c : Client) (m : Option Nat), c.authorized = false →
      (list c m).2.written = c.written ++ listQuery m) ∧
    (∀ (c : Client) (m : Nat), c.authorized = false →
      (retr c m).2.written = c.written ++ retrQuery m) ∧
    (∀ (c : Client) (m n : Nat), c.authorized = false →
      (top c m n).2.written = c.written ++ topQuery m n) ∧
    (∀ (c : Client) (m : Nat), c.authorized = false →
      (dele c m).2.written = c.written ++ deleQuery m) ∧
    (∀ c : Client, c.authorized = false →
      (noop c).2.written = c.written ++ noopQuery) ∧
    (∀ c : Client, c.authorized = false →
      (rset c).2.written = c.written ++ rsetQuery) ∧
    (∀ (c : Client) (m : Option Nat), c.authorized = false →
      (uidl c m).2.written = c.written ++ uidlQuery m) ∧
    (∀ c : Client, c.authorized = false →
      (rset c).1 = (read_response false c.input).1) := by
  refine ⟨fun c _ => ?_, fun c m _ => rfl, fun c m _ => ?_, fun c m n _ => rfl,
    fun c m _ => rfl, fun c _ => ?_, fun c _ => rfl, fun c m _ => rfl, fun c _ => rfl⟩
  · rw [stat_client, send_written]
  · rw [retr_client, send_written]
  · rw [noop_client, send_written]

theorem list_client (c : Client) (m : Option Nat) :
    (list c m).2 = (send c (listQuery m) m.isNone).2 := rfl

theorem dele_client (c : Client) (m : Nat) :
    (dele c m).2 = (send c (deleQuery m) false).2 := rfl

theorem rset_client (c : Client) : (rset c).2 = (send c rsetQuery false).2 := rfl

theorem top_client (c : Client) (m n : Nat) :
    (top c m n).2 = (send c (topQuery m n) true).2 := rfl

theorem uidl_client (c : Client) (m : Option Nat) :
    (uidl c m).2 = (send c (uidlQuery m) m.isNone).2 := rfl

theorem login_authorized (c : Client) (u p : Line) :
    (login c u p).2.authorized = c.authorized ∨
    ((login c u p).1 = some (Except.ok ()) ∧ (login c u p).2.authorized = true) := by
  unfold login
  by_cases ha : c.authorized = true
  · rw [if_pos ha]
    left
    rfl
  · rw [if_neg ha]
    split
    · left
      rename_i c1 heq
      exact (congrArg (fun x => x.2.authorized) heq).symm.trans
        (send_authorized c (userQuery u) false)
    · left
      rename_i e c1 heq
      exact (congrArg (fun x => x.2.authorized) heq).symm.trans
        (send_authorized c (userQuery u) false)
    · rename_i s1 c1 heq1
      have h1 : c1.authorized = c.authorized :=
        (congrArg (fun x => x.2.authorized) heq1).symm.trans
          (send_authorized c (userQuery u) false)
      split
      · left
        rename_i c2 heq2
        exact ((congrArg (fun x => x.2.authorized) heq2).symm.trans
          (send_authorized c1 (passQuery p) false)).trans h1
      · left
        rename_i e c2 heq2
        exact ((congrArg (fun x => x.2.authorized) heq2).symm.trans
          (send_authorized c1 (passQuery p) false)).trans h1
      · right
        exact ⟨rfl, rfl⟩

theorem apop_authorized (c : Client) (n d : Line) :
    (apop c n d).2.authorized = c.authorized ∨
    ((∃ s, (apop c n d).1 = some (Except.ok s)) ∧ (apop c n d).2.authorized = true) := by
  unfold apop
  by_cases ha : c.authorized = true
  · rw [if_pos ha]
    left
    rfl
  · rw [if_neg ha]
    split
    · right
      rename_i s c1 heq
      exact ⟨⟨s, rfl⟩, rfl⟩
    · left
      exact send_authorized c (apopQuery n d) false

/-- C5: `login` is atomic.  If the USER line is rejected by the server (the
send of the USER query returns a failure), then `login` returns that failure,
the bytes written are exactly the USER query (the PASS line is never sent),
and the session stays unauthenticated.  Moreover any failed `login` leaves
the `authorized` flag exactly as it was, so the caller may retry. -/
theorem C5_login_atomic :
    (∀ (c : Client) (u p e : Line), c.authorized = false →
      (send c (userQuery u) false).1 = some (Except.error e) →
      (login c u p).1 = some (Except.error e) ∧
      (login c u p).2.written = c.written ++ userQuery u ∧
      (login c u p).2.authorized = false) ∧
    (∀ (c : Client) (u p e : Line),
      (login c u p).1 = some (Except.error e) →
      (login c u p).2.authorized = c.authorized) := by
  constructor
  · intro c u p e h hsend
    have ha : ¬ (c.authorized = true) := by simp [h]
    rcases hq : send c (userQuery u) false with ⟨r, c1⟩
    rw [hq] at hsend
    simp only at hsend
    subst hsend
    have hc1 : (send c (userQuery u) false).2 = c1 := congrArg Prod.snd hq
    unfold login
    rw [if_neg ha, hq]
    refine ⟨rfl, ?_, ?_⟩
    · show c1.written = c.written ++ userQuery u
      rw [← hc1, send_written]
    · show c1.authorized = false
      rw [← hc1, send_authorized, h]
  · intro c u p e h
    rcases login_authorized c u p with hl | hl
    · exact hl
    · rw [hl.1] at h
      simp at h

/-- C8: the session stage advances monotonically.  Once `authorized` is true
no operation resets it; from an unauthenticated state the flag can become
true only through a successful `login` or `apop`; and invoked while already
authorized, `login` and `apop` fail locally with the wrong-stage message,
leaving the client untouched — so the authenticated state is entered at most
once, and only from the unauthenticated one. -/
theorem C8_authorized_is_monotone :
    (∀ (c : Client) (op : Op), c.authorized = true → (applyOp c op).authorized = true) ∧
    (∀ (c : Client) (op : Op), c.authorized = false → (applyOp c op).authorized = true →
      (∃ u p, op = Op.loginOp u p ∧ (login c u p).1 = some (Except.ok ())) ∨
      (∃ n d, op = Op.apopOp n d ∧ ∃ s, (apop c n d).1 = some (Except.ok s))) ∧
    (∀ (c : Client) (u p : Line), c.authorized = true →
      (login c u p).1 = some (Except.error wrongStageMsg) ∧ (login c u p).2 = c) ∧
    (∀ (c : Client) (n d : Line), c.authorized = true →
      (apop c n d).1 = some (Except.error wrongStageMsg) ∧ (apop c n d).2 = c) := by
  refine ⟨?_, ?_, ?_, ?_⟩
  · intro c op h
    cases op with
    | loginOp u p =>
      show (login c u p).2.authorized = true
      unfold login
      rw [if_pos h]
      exact h
    | apopOp n d =>
      show (apop c n d).2.authorized = true
      unfold apop
      rw [if_pos h]
      exact h
    | quitOp =>
      show (quit c).2.authorized = true
      rw [quit_client, send_authorized]; exact h
    | statOp =>
      show (stat c).2.authorized = true
      rw [stat_client, send_authorized]; exact h
    | listOp m =>
      show (list c m).2.authorized = true
      rw [list_client, send_authorized]; exact h
    | retrOp m =>
      show (retr c m).2.authorized = true
      rw [retr_client, send_authorized]; exact h
    | deleOp m =>
      show (dele c m).2.authorized = true
      rw [dele_client, send_authorized]; exact h
    | noopOp =>
      show (noop c).2.authorized = true
      rw [noop_client, send_authorized]; exact h
    | rsetOp =>
      show (rset c).2.authorized = true
      rw [rset_client, send_authorized]; exact h
    | topOp m n =>
      show (top c m n).2.authorized = true
      rw [top_client, send_authorized]; exact h
    | uidlOp m =>
      show (uidl c m).2.authorized = true
      rw [uidl_client, send_authorized]; exact h
  · intro c op h hgoal
    have ha : ¬ (c.authorized = true) := by simp [h]
    cases op with
    | loginOp u p =>
      rcases login_authorized c u p with hl | hl
      · replace hgoal : (login c u p).2.authorized = true := hgoal
        rw [hl, h] at hgoal
        exact Bool.noConfusion hgoal
      · exact Or.inl ⟨u, p, rfl, hl.1⟩
    | apopOp n d =>
      rcases apop_authorized c n d with hl | hl
      · replace hgoal : (apop c n d).2.authorized = true := hgoal
        rw [hl, h] at hgoal
        exact Bool.noConfusion hgoal
      · rcases hl.1 with ⟨s, hs⟩
        exact Or.inr ⟨n, d, rfl, s, hs⟩
    | quitOp =>
      replace hgoal : (quit c).2.authorized = true := hgoal
      rw [quit_client, send_authorized, h] at hgoal
      exact Bool.noConfusion hgoal
    | statOp =>
      replace hgoal : (stat c).2.authorized = true := hgoal
      rw [stat_client, send_authorized, h] at hgoal
      exact Bool.noConfusion hgoal
    | listOp m =>
      replace hgoal : (list c m).2.authorized = true := hgoal
      rw [list_client, send_authorized, h] at hgoal
      exact Bool.noConfusion hgoal
    | retrOp m =>
      replace hgoal : (retr c m).2.authorized = true := hgoal
      rw [retr_client, send_authorized, h] at hgoal
      exact Bool.noConfusion hgoal
    | deleOp m =>
      replace hgoal : (dele c m).2.authorized = true := hgoal
      rw [dele_client, send_authorized, h] at hgoal
      exact Bool.noConfusion hgoal
    | noopOp =>
      replace hgoal : (noop c).2.authorized = true := hgoal
      rw [noop_client, send_authorized, h] at hgoal
      exact Bool.noConfusion hgoal
    | rsetOp =>
      replace hgoal : (rset c).2.authorized = true := hgoal
      rw [rset_client, send_authorized, h] at hgoal
      exact Bool.noConfusion hgoal
    | topOp m n =>
      replace hgoal : (top c m n).2.authorized = true := hgoal
      rw [top_client, send_authorized, h] at hgoal
      exact Bool.noConfusion hgoal
    | uidlOp m =>
      replace hgoal : (uidl c m).2.authorized = true := hgoal
      rw [uidl_client, send_authorized, h] at hgoal
      exact Bool.noConfusion hgoal
  · intro c u p h
    unfold login
    rw [if_pos h]
    exact ⟨rfl, rfl⟩
  · intro c n d h
    unfold apop
    rw [if_pos h]
    exact ⟨rfl, rfl⟩

theorem readMultiline_abort (input : List Line) :
    ∀ resp buffer : Line, hasSfx termLine buffer = false →
      input.all (fun l => !hasSfx termLine l) = true →
      (readMultiline resp buffer input).1 = Except.error abortMsg := by
  induction input with
  | nil =>
    intro resp buffer hb _
    simp [readMultiline, hb]
  | cons l ls ih =>
    intro resp buffer hb hall
    simp only [List.all_cons, Bool.and_eq_true, Bool.not_eq_true'] at hall
    by_cases he : l.isEmpty
    · simp [readMultiline, hb, he]
    · simp only [readMultiline, hb, he, Bool.false_eq_true, if_false]
      exact ih _ _ hall.1 hall.2

theorem splitChar_ne_nil (sep : Char) (s : Line) : splitChar sep s ≠ [] := by
  cases s with
  | nil => simp [splitChar]
  | cons c cs =>
    simp only [splitChar]
    split
    · simp
    · split
      · simp
      · simp

theorem joinChar_splitChar (sep : Char) (s : Line) :
    joinChar sep (splitChar sep s) = s := by
  induction s with
  | nil => rfl
  | cons c cs ih =>
    by_cases h : c == sep
    · have hc : c = sep := eq_of_beq h
      show joinChar sep (if c == sep then [] :: splitChar sep cs
        else match splitChar sep cs with
          | [] => [[c]]
          | h :: t => (c :: h) :: t) = c :: cs
      rw [if_pos h]
      rcases hs : splitChar sep cs with _ | ⟨h1, t1⟩
      · exact absurd hs (splitChar_ne_nil sep cs)
      · rw [hs] at ih
        calc joinChar sep ([] :: h1 :: t1) = sep :: joinChar sep (h1 :: t1) := rfl
          _ = sep :: cs := by rw [ih]
          _ = c :: cs := by rw [hc]
    · show joinChar sep (if c == sep then [] :: splitChar sep cs
        else match splitChar sep cs with
          | [] => [[c]]
          | h :: t => (c :: h) :: t) = c :: cs
      rw [if_neg h]
      rcases hs : splitChar sep cs with _ | ⟨h1, t1⟩
      · exact absurd hs (splitChar_ne_nil sep cs)
      · rw [hs] at ih
        cases t1 with
        | nil => exact congrArg (List.cons c) ih
        | cons t2 ts => exact congrArg (List.cons c) ih

theorem rustSplitSkipJoin_after_nl (s : Line) (hmem : '\n' ∈ s) :
    rustSplitSkipJoin s = (s.dropWhile (fun c => !(c == '\n'))).drop 1 := by
  induction s with
  | nil => simp at hmem
  | cons c cs ih =>
    by_cases h : c == '\n'
    · show joinChar '\n' ((splitChar '\n' (c :: cs)).drop 1) = _
      simp only [splitChar, h, if_true, List.drop_succ_cons, List.drop_zero]
      rw [joinChar_splitChar]
      simp [List.dropWhile_cons, h]
    · have hcf : (c == '\n') = false := by simpa using h
      have hmem' : '\n' ∈ cs := by
        rcases List.mem_cons.1 hmem with h1 | h1
        · exact absurd (beq_iff_eq.2 h1.symm) h
        · exact h1
      rcases hs : splitChar '\n' cs with _ | ⟨h1, t1⟩
      · exact absurd hs (splitChar_ne_nil _ cs)
      · show joinChar '\n' ((splitChar '\n' (c :: cs)).drop 1) = _
        simp only [splitChar, hcf, Bool.false_eq_true, if_false, hs, List.drop_succ_cons,
          List.drop_zero]
        have hx := ih hmem'
        simp only [rustSplitSkipJoin, hs, List.drop_succ_cons, List.drop_zero] at hx
        rw [hx]
        simp [List.dropWhile_cons, hcf]

theorem readMultiline_run (ps : List Line) :
    ∀ resp buffer : Line, hasSfx termLine buffer = false →
      ps.all (fun p => !hasSfx termLine p && !p.isEmpty) = true →
      readMultiline resp buffer (ps ++ [termLine]) = (Except.ok (resp ++ ps.flatten), []) := by
  induction ps with
  | nil =>
    intro resp buffer hb _
    have h1 : hasSfx termLine termLine = true := by decide
    have h2 : termLine.isEmpty = false := by decide
    have h3 : stripTerm termLine = [] := by decide
    simp [readMultiline, hb, h1, h2, h3]
  | cons p ps ih =>
    intro resp buffer hb hall
    simp only [List.all_cons, Bool.and_eq_true, Bool.not_eq_true'] at hall
    obtain ⟨⟨hp, hpe⟩, hps⟩ := hall
    have hst : stripTerm p = p := by simp [stripTerm, hp]
    simp only [List.cons_append, readMultiline, hb, Bool.false_eq_true, if_false, hpe, hst]
    show readMultiline (resp ++ p) p (ps ++ [termLine]) = _
    rw [ih (resp ++ p) p hp hps]
    simp [List.append_assoc]

/-- C6: a zero-byte read while decoding a reply always yields the
connection-aborted failure, never a truncated success and never a normal
negative reply.  First conjunct: EOF at the status line (any framing mode).
Second conjunct: inside the multi-line loop, if no line of the remaining
stream ever passes the terminator test, the loop ends in the abort error when
the stream runs out.  Third conjunct: the concrete scenario of a positive
status line plus one payload line followed by EOF before the terminator. -/
theorem C6_zero_byte_read_aborts :
    (∀ m : Bool, (read_response m []).1 = some (Except.error abortMsg)) ∧
    (∀ (resp buffer : Line) (input : List Line),
      hasSfx termLine buffer = false →
      input.all (fun l => !hasSfx termLine l) = true →
      (readMultiline resp buffer input).1 = Except.error abortMsg) ∧
    (read_response true ["+OK 2 messages\r\n".toList, "1 120\r\n".toList]).1 =
      some (Except.error abortMsg) := by
  refine ⟨fun m => rfl, fun resp buffer input hb hall =>
    readMultiline_abort input resp buffer hb hall, rfl⟩

theorem C6_abort_witness :
    (readMultiline [] "x\r\n".toList ["a\r\n".toList]).1 = Except.error abortMsg := by
  exact C6_zero_byte_read_aborts.2.1 [] "x\r\n".toList ["a\r\n".toList] (by decide) (by decide)

/-- C10: for a positive multi-line reply whose status line does not itself
pass the terminator test and whose payload lines neither pass it nor are
empty, the decoded payload is the status line's trailing text, line
terminator included, followed by every payload line appended verbatim (CRLF
preserved), with the terminator line consumed and excluded; `retr` maps the
payload through `split('\n').skip(1).join("\n")`, which on any payload
containing a newline drops exactly everything up to and including the first
`'\n'`. -/
theorem C10_multiline_payload_shape :
    (∀ (t : Line) (ps : List Line),
      hasSfx termLine ('+' :: 'O' :: 'K' :: ' ' :: (t ++ ['\r', '\n'])) = false →
      ps.all (fun p => !hasSfx termLine p && !p.isEmpty) = true →
      read_response true
          (('+' :: 'O' :: 'K' :: ' ' :: (t ++ ['\r', '\n'])) :: (ps ++ [termLine])) =
        (some (Except.ok ((t ++ ['\r', '\n']) ++ ps.flatten)), [])) ∧
    (∀ (c : Client) (msg : Nat) (s : Line),
      (send c (retrQuery msg) true).1 = some (Except.ok s) →
      (retr c msg).1 = some (Except.ok (rustSplitSkipJoin s))) ∧
    (∀ s : Line, '\n' ∈ s →
      rustSplitSkipJoin s = (s.dropWhile (fun c => !(c == '\n'))).drop 1) := by
  refine ⟨?_, ?_, fun s h => rustSplitSkipJoin_after_nl s h⟩
  · intro t ps h1 h2
    have hps : parseStatus ('+' :: 'O' :: 'K' :: ' ' :: (t ++ ['\r', '\n'])) =
        some (Except.ok (t ++ ['\r', '\n'])) := by
      simp [parseStatus, posMarker, hasPfx, sliceFrom]
    simp only [read_response, readLine, List.isEmpty_cons, hps]
    rw [readMultiline_run ps (t ++ ['\r', '\n'])
      ('+' :: 'O' :: 'K' :: ' ' :: (t ++ ['\r', '\n'])) h1 h2]
    simp
  · intro c msg s hsend
    unfold retr
    split
    · rename_i s1 c1 heq
      rw [heq] at hsend
      replace hsend : some (Except.ok s1) = some (Except.ok s) := hsend
      have hs1 : s1 = s := by simpa using hsend
      rw [hs1]
    · rename_i r hnot
      rcases hq : send c (retrQuery msg) true with ⟨r1, c1⟩
      rw [hq] at hsend
      replace hsend : r1 = some (Except.ok s) := hsend
      subst hsend
      exact (hnot s c1 hq).elim

theorem C10_shape_witness :
    read_response true
        (('+' :: 'O' :: 'K' :: ' ' :: ("2 msgs".toList ++ ['\r', '\n'])) ::
          (["a\r\n".toList] ++ [termLine])) =
      (some (Except.ok (("2 msgs".toList ++ ['\r', '\n']) ++ "a\r\n".toList)), []) := by
  exact C10_multiline_payload_shape.1 "2 msgs".toList ["a\r\n".toList] (by decide) (by decide)

theorem C2_mailbox_write_witness :
    (stat ⟨["+OK 0 0\r\n".toList], [], false⟩).2.written = statQuery := by
  exact C2_mailbox_ops_write_without_stage_check.1 ⟨["+OK 0 0\r\n".toList], [], false⟩ rfl

theorem C5_login_atomic_witness :
    (login ⟨["-ERR no\r\n".toList], [], false⟩ "u".toList "p".toList).1 =
        some (Except.error "no\r\n".toList) ∧
    (login ⟨["-ERR no\r\n".toList], [], false⟩ "u".toList "p".toList).2.written =
        userQuery "u".toList ∧
    (login ⟨["-ERR no\r\n".toList], [], false⟩ "u".toList "p".toList).2.authorized = false := by
  exact C5_login_atomic.1 ⟨["-ERR no\r\n".toList], [], false⟩ "u".toList "p".toList
    "no\r\n".toList rfl rfl

theorem C8_monotone_witness :
    (applyOp ⟨[], [], true⟩ Op.noopOp).authorized = true := by
  exact C8_authorized_is_monotone.1 ⟨[], [], true⟩ Op.noopOp rfl

end Pop3
